import Mathlib

/-!
Verification of the scRNA-seq preprocessing pipeline
(src/preprocessing: filters.py, transforms.py, workflow.py).

A pandas DataFrame is modelled as row labels (cells), column labels (genes)
and a row-major rational matrix.  Exact rational arithmetic stands in for
floating point; every definition is executable.
-/

/-- A cells-by-genes expression matrix: a pandas DataFrame with string
row labels (cells) and column labels (genes). -/
structure DF where
  index : List String
  columns : List String
  data : List (List ℚ)
deriving DecidableEq, Repr

/-- Well-formedness: one data row per cell label, one entry per gene label. -/
def DF.WF (df : DF) : Prop :=
  df.data.length = df.index.length ∧ ∀ r ∈ df.data, r.length = df.columns.length

instance (df : DF) : Decidable df.WF :=
  decidable_of_iff
    (df.data.length = df.index.length ∧ ∀ r ∈ df.data, r.length = df.columns.length)
    Iff.rfl

/-- Python str.startswith (case-sensitive), on the underlying character lists. -/
def pyStartsWith (pre s : String) : Bool := pre.data.isPrefixOf s.data

/-- scprep.select.get_gene_set(data, starts_with=pre): the column names that
start with the given string; the match is Python str.startswith, hence
case-sensitive. -/
def get_gene_set (pre : String) (df : DF) : List String :=
  df.columns.filter (fun c => pyStartsWith pre c)

/-- The mitochondrial gene set used by filter_high_mito_cells
(filters.py line 87: get_gene_set(data, starts_with="MT-")). -/
def mtGenes (df : DF) : List String := get_gene_set ("MT-") df

/-- data[gs].sum(axis=1) on one row: the sum of the entries at the named
columns (each name looked up in the column-label list). -/
def subsetSum (cols : List String) (gs : List String) (row : List ℚ) : ℚ :=
  (gs.map (fun g => row.getD (cols.indexOf g) 0)).sum

/-- Per-cell gene-subset expression: subset counts over total counts, a zero
total being replaced by 1 (filters.py line 102: total_counts.replace(0, 1)). -/
def fractionRatios (df : DF) (gs : List String) : List ℚ :=
  df.data.map (fun row =>
    subsetSum df.columns gs row / (if row.sum = 0 then 1 else row.sum))

/-- mito_expression of filters.py lines 98-102. -/
def mito_expression (df : DF) : List ℚ := fractionRatios df (mtGenes df)

/-- np.percentile(xs, p) with the numpy default linear-interpolation method:
on the ascending sort s of xs, with h = (len(s)-1)*p/100 and i = floor h,
the value is s[i] + (h - i)*(s[i+1] - s[i]).  (A total function here;
np.percentile itself is defined for nonempty xs and 0 <= p <= 100, the only
domain the pipeline uses.) -/
def npPercentile (xs : List ℚ) (p : ℚ) : ℚ :=
  let s := xs.insertionSort (· ≤ ·)
  let h : ℚ := ((s.length : ℚ) - 1) * p / 100
  let i : ℕ := (⌊h⌋).toNat
  let lo := s.getD i 0
  let hi := s.getD (i + 1) lo
  lo + (h - (i : ℚ)) * (hi - lo)

/-- data.loc[mask] : keep the rows whose Boolean mask entry is true. -/
def locRows (df : DF) (mask : List Bool) : DF :=
  { index := ((df.index.zip mask).filter (fun q => q.2)).map Prod.fst
    columns := df.columns
    data := ((df.data.zip mask).filter (fun q => q.2)).map Prod.fst }

/-- filter_high_mito_cells (filters.py lines 54-115): identify the MT- genes;
if there are none, warn and return the input unchanged; otherwise keep the
cells whose mitochondrial expression is strictly below the percentile cutoff
of the current expression distribution.  The source default percentile is 95. -/
def filter_high_mito_cells (df : DF) (percentile : ℚ) : DF :=
  let mt_genes := mtGenes df
  if mt_genes = [] then df
  else
    let ratios := mito_expression df
    let cutoff := npPercentile ratios percentile
    locRows df (ratios.map (fun r => decide (r < cutoff)))

/-- The non-fatal warning of filter_high_mito_cells when no MT- genes are
found (filters.py lines 90-93); warnings are modelled as a message list. -/
def mitoWarnings (df : DF) : List String :=
  if mtGenes df = [] then
    ["[Filter Mito] No mitochondrial genes found. Skipping filtering."]
  else []

/-- Values of the column at position j, down the rows. -/
def colVals (df : DF) (j : ℕ) : List ℚ := df.data.map (fun row => row.getD j 0)

/-- data.max(axis=0) at column position j; none on a frame with no rows
(where pandas produces NaN). -/
def colMax (df : DF) (j : ℕ) : Option ℚ := (colVals df j).max?

/-- One entry of the mask data.max(axis=0) >= min_count (filters.py line 43);
a NaN maximum (no rows) compares false, as in pandas. -/
def magnitudeKeep (df : DF) (min_count : ℚ) (j : ℕ) : Bool :=
  match colMax df j with
  | some m => decide (min_count ≤ m)
  | none => false

/-- data.loc[:, mask] : keep the columns whose Boolean mask entry is true. -/
def locCols (df : DF) (mask : List Bool) : DF :=
  { index := df.index
    columns := ((df.columns.zip mask).filter (fun q => q.2)).map Prod.fst
    data := df.data.map (fun row => ((row.zip mask).filter (fun q => q.2)).map Prod.fst) }

/-- filter_low_magnitude_genes (filters.py lines 9-51): keep the genes whose
column maximum reaches min_count (source default 2). -/
def filter_low_magnitude_genes (df : DF) (min_count : ℚ) : DF :=
  locCols df ((List.range df.columns.length).map (magnitudeKeep df min_count))

/-- The column maximum looked up by gene name. -/
def geneMax (df : DF) (g : String) : Option ℚ := colMax df (df.columns.indexOf g)

/-- The keep condition of the magnitude filter at a named gene:
the column maximum exists and is at least min_count. -/
def geneKept (df : DF) (min_count : ℚ) (g : String) : Bool :=
  match geneMax df g with
  | some m => decide (min_count ≤ m)
  | none => false

/-- Modelled from the spec: filter_cells_by_fraction, the generic fraction
filter, whose definition is missing from src/ (test_filters.py tests it, and
the cell-stage wrappers below need it).  Intersect the gene list with the
columns; if the intersection is empty, warn and return the input unchanged;
otherwise keep exactly the cells whose gene-subset share of total counts
(zero totals replaced by 1) is strictly below the P-th percentile of the
current shares. -/
def filter_cells_by_fraction (df : DF) (gene_list : List String) (percentile : ℚ) : DF :=
  let genes := gene_list.filter (fun g => df.columns.contains g)
  if genes = [] then df
  else
    let ratios := fractionRatios df genes
    let cutoff := npPercentile ratios percentile
    locRows df (ratios.map (fun r => decide (r < cutoff)))

/-- Modelled from the spec: filter_high_apoptosis_cells, which is called by
workflow.py line 41 but missing from src/.  It instantiates the generic
fraction filter with the curated apoptosis gene list; the list (genes.py is
also missing from src/) and the stage percentile are passed as parameters. -/
def filter_high_apoptosis_cells (df : DF) (apoptosis_genes : List String) (percentile : ℚ) : DF :=
  filter_cells_by_fraction df apoptosis_genes percentile

/-- Modelled from the spec: filter_high_rrna_cells, which is called by
workflow.py line 42 but missing from src/, likewise parameterized by the
curated rRNA gene list and the stage percentile. -/
def filter_high_rrna_cells (df : DF) (rrna_genes : List String) (percentile : ℚ) : DF :=
  filter_cells_by_fraction df rrna_genes percentile

/-- filter_data (workflow.py lines 34-46): magnitude filter, then apoptosis,
then rRNA, then mitochondrial cell filtering.  The gene catalogs and the
apoptosis/rRNA stage percentiles are parameters (their defining module is
absent from src/); the magnitude threshold 2 and the mitochondrial
percentile 95 are the source defaults of the functions in filters.py. -/
def filter_data (apop rrna : List String) (pApop pRrna : ℚ) (raw : DF) : DF :=
  filter_high_mito_cells
    (filter_high_rrna_cells
      (filter_high_apoptosis_cells (filter_low_magnitude_genes raw 2) apop pApop)
      rrna pRrna)
    95

/-- preprocess_data (workflow.py lines 6-23): always filter first, then run
only the requested normalization branch; an unknown branch name raises
ValueError, modelled as Except.error.  The bodies of the two branches
(normalize_data_with_log_cpm, and the scanpy-based
normalize_data_with_pearson) are passed as functions. -/
def preprocess_data (apop rrna : List String) (pApop pRrna : ℚ)
    (normalize_log_cpm normalize_pearson : DF → DF)
    (raw : DF) (branch : String) : Except String DF :=
  let clean := filter_data apop rrna pApop pRrna raw
  if branch = "log_cpm" then Except.ok (normalize_log_cpm clean)
  else if branch = "pearson" then Except.ok (normalize_pearson clean)
  else Except.error ("Unknown preprocessing branch: " ++ branch)

/-- normalize_by_library_size (transforms.py lines 10-45): divide each row by
its total and multiply by the rescale target, then fillna(0).  Over exact
rationals division by zero already yields 0, which coincides with the
0/0 -> NaN -> fillna(0) entries the source produces on a non-negative matrix
whose row total is zero; the source default rescale is 1,000,000. -/
def normalize_by_library_size (df : DF) (rescale : ℚ) : DF :=
  { df with data := df.data.map (fun row => row.map (fun x => x / row.sum * rescale)) }


/-! Concrete frames used to instantiate the theorems below. -/

/-- Three cells whose mitochondrial ratios are 1, 1/2 and 0. -/
def df1 : DF :=
  { index := ["Cell_Bad", "Cell_Border", "Cell_Good"]
    columns := ["MT-G", "Other"]
    data := [[100, 0], [50, 50], [0, 100]] }

/-- A minimal frame for exercising the branch dispatch. -/
def df2 : DF := { index := ["c"], columns := ["G"], data := [[1]] }

/-- Two cells with identical subset shares (both 1/2). -/
def df3 : DF := { index := ["C1", "C2"], columns := ["A", "B"], data := [[1, 1], [1, 1]] }

/-- One cell with a nonzero total and one all-zero cell. -/
def df4 : DF := { index := ["a", "b"], columns := ["G1", "G2"], data := [[3, 1], [0, 0]] }

/-- The magnitude-filter doc example: a real-signal gene, a 0/1 gene and an
all-zero gene. -/
def df5 : DF :=
  { index := ["Sample_1", "Sample_2", "Sample_3"]
    columns := ["Gene_A", "Gene_Binary", "Gene_Zero"]
    data := [[10, 1, 0], [5, 0, 0], [2, 1, 0]] }

/-- A zero-total cell next to a normal cell, with a mitochondrial column. -/
def df6 : DF :=
  { index := ["Zero_Cell", "Normal_Cell"]
    columns := ["MT-A", "B"]
    data := [[0, 0], [5, 5]] }

/-- A frame with no mitochondrial columns at all. -/
def df7 : DF := { index := ["c1", "c2"], columns := ["G1", "G2"], data := [[1, 2], [3, 4]] }

/-- Lowercase mouse-style mitochondrial column naming. -/
def dfMouse : DF :=
  { index := ["c1", "c2"], columns := ["mt-Co1", "ACTB"], data := [[100, 0], [0, 100]] }

/-- The same matrix with the human uppercase naming. -/
def dfHuman : DF :=
  { index := ["c1", "c2"], columns := ["MT-CO1", "ACTB"], data := [[100, 0], [0, 100]] }

/-- Two cells whose mitochondrial counts are all zero (uniform ratio 0). -/
def df10 : DF :=
  { index := ["a", "b"], columns := ["MT-X", "G"], data := [[0, 10], [0, 20]] }

/-! Helper lemmas. -/

/-- Pulling a map on the second components out of a zip-filter-map. -/
theorem filter_zip_map_snd {α β γ : Type _} (f : γ → Bool) (σ : β → γ) :
    ∀ (l : List α) (rs : List β),
      ((l.zip (rs.map σ)).filter (fun q => f q.2)).map Prod.fst
        = ((l.zip rs).filter (fun q => f (σ q.2))).map Prod.fst
  | [], _ => by simp
  | _ :: _, [] => by simp
  | a :: l, r :: rs => by
    cases hf : f (σ r) <;>
      simp [hf, filter_zip_map_snd f σ l rs]

/-- Filtering a zip with the positions: with a pointwise agreement between
the positional and the elementwise predicate, the zip-filter-map is an
ordinary filter. -/
theorem filter_zip_range {α : Type _} (g : α → Bool) :
    ∀ (l : List α) (f : ℕ → Bool),
      (∀ i (hi : i < l.length), f i = g (l.get ⟨i, hi⟩)) →
      ((l.zip ((List.range l.length).map f)).filter (fun q => q.2)).map Prod.fst
        = l.filter g
  | [], _, _ => by simp
  | a :: l, f, hfg => by
    have h0 : f 0 = g a := hfg 0 (Nat.succ_pos _)
    have hrange : List.range (a :: l).length = 0 :: (List.range l.length).map Nat.succ := by
      simp [List.range_succ_eq_map]
    have htail :
        ((l.zip (((List.range l.length).map Nat.succ).map f)).filter (fun q => q.2)).map Prod.fst
          = l.filter g := by
      rw [List.map_map]
      exact filter_zip_range g l (f ∘ Nat.succ)
        (fun i hi => hfg (i + 1) (Nat.succ_lt_succ hi))
    rw [hrange]
    cases hf : f 0 <;>
      simp_all [List.zip_cons_cons, List.filter_cons]

/-- Membership of the i-th label in a mask-filtered zip is the i-th mask bit
(for lists without duplicates). -/
theorem getElem_mem_filter_zip {α : Type _} [DecidableEq α] {l : List α} {m : List Bool}
    (hnd : l.Nodup) (hlen : m.length = l.length) {i : ℕ} (hi : i < l.length) :
    (l[i] ∈ (((l.zip m).filter (fun q => q.2)).map Prod.fst)) ↔ m[i] = true := by
  constructor
  · intro hmem
    rcases List.mem_map.1 hmem with ⟨q, hq, hq1⟩
    rcases List.mem_filter.1 hq with ⟨hqz, hq2⟩
    rcases List.mem_iff_getElem.1 hqz with ⟨j, hj, hjq⟩
    have hjl : j < l.length := lt_of_lt_of_le hj (by simp [List.length_zip])
    have hjm : j < m.length := lt_of_lt_of_le hj (by simp [List.length_zip])
    have hq_eq : q = (l[j], m[j]) := by
      rw [← hjq]; exact List.getElem_zip
    have hji : j = i := by
      have : l[j] = l[i] := by rw [← hq1, hq_eq]
      exact (List.Nodup.getElem_inj_iff hnd).1 this
    subst hji
    have : q.2 = true := hq2
    rw [hq_eq] at this
    exact this
  · intro hbit
    have hiz : i < (l.zip m).length := by simp [List.length_zip]; omega
    apply List.mem_map.2
    refine ⟨(l[i], m[i]), ?_, rfl⟩
    apply List.mem_filter.2
    refine ⟨?_, hbit⟩
    have : (l.zip m)[i] = (l[i], m[i]) := List.getElem_zip
    rw [← this]
    exact List.getElem_mem hiz

/-- Scaling every element of a list scales the sum. -/
theorem sum_map_div_mul (s R : ℚ) :
    ∀ l : List ℚ, (l.map (fun x => x / s * R)).sum = l.sum / s * R
  | [] => by simp
  | x :: l => by
    simp [sum_map_div_mul s R l, add_div, add_mul]

/-- A non-negative list of rationals summing to zero is all zeros. -/
theorem all_zero_of_sum_zero :
    ∀ l : List ℚ, (∀ x ∈ l, 0 ≤ x) → l.sum = 0 → ∀ x ∈ l, x = 0
  | [], _, _ => by simp
  | a :: l, h0, hs => by
    have ha : 0 ≤ a := h0 a (List.mem_cons_self a l)
    have hl : 0 ≤ l.sum := List.sum_nonneg (fun x hx => h0 x (List.mem_cons_of_mem a hx))
    have hsum : a + l.sum = 0 := by simpa using hs
    have ha0 : a = 0 := by linarith
    have hl0 : l.sum = 0 := by linarith
    intro x hx
    rcases List.mem_cons.1 hx with rfl | hx
    · exact ha0
    · exact all_zero_of_sum_zero l (fun y hy => h0 y (List.mem_cons_of_mem a hy)) hl0 x hx

/-- getD on a replicate, inside the range. -/
theorem getD_replicate_lt {α : Type _} (a d : α) {n i : ℕ} (h : i < n) :
    (List.replicate n a).getD i d = a := by
  rw [List.getD_eq_getElem (l := List.replicate n a) (d := d) (by simpa using h)]
  exact List.getElem_replicate _ _

/-- getD on a replicate with the replicated element as default value. -/
theorem getD_replicate_self {α : Type _} (a : α) :
    ∀ (n i : ℕ), (List.replicate n a).getD i a = a
  | 0, _ => by simp
  | n + 1, 0 => by simp [List.replicate_succ]
  | n + 1, i + 1 => by
    simp only [List.replicate_succ, List.getD_cons_succ]
    exact getD_replicate_self a n i

/-- Sorting a constant list returns it unchanged. -/
theorem insertionSort_replicate (n : ℕ) (r : ℚ) :
    (List.replicate n r).insertionSort (· ≤ ·) = List.replicate n r := by
  have hsorted : List.Sorted (· ≤ ·) (List.replicate n r) := by
    unfold List.Sorted
    rw [List.pairwise_replicate]
    exact Or.inr (le_refl r)
  exact List.eq_of_perm_of_sorted (List.perm_insertionSort _ _)
    (List.sorted_insertionSort _ _) hsorted

/-- Sorting is invariant under permutation of the input. -/
theorem insertionSort_congr_perm {xs ys : List ℚ} (hp : xs.Perm ys) :
    xs.insertionSort (· ≤ ·) = ys.insertionSort (· ≤ ·) := by
  exact List.eq_of_perm_of_sorted
    ((List.perm_insertionSort _ xs).trans (hp.trans (List.perm_insertionSort _ ys).symm))
    (List.sorted_insertionSort _ xs) (List.sorted_insertionSort _ ys)

/-- The percentile is invariant under permutation of the data. -/
theorem npPercentile_congr_perm {xs ys : List ℚ} (p : ℚ) (hp : xs.Perm ys) :
    npPercentile xs p = npPercentile ys p := by
  unfold npPercentile
  rw [insertionSort_congr_perm hp]

/-- Evaluation scheme for the percentile: supply the sorted list, the floor
of the interpolation position, and the two interpolation endpoints. -/
theorem npPercentile_eval (xs s : List ℚ) (p : ℚ) (i : ℕ) (lo hi : ℚ)
    (hs : xs.insertionSort (· ≤ ·) = s)
    (hfl : ⌊((s.length : ℚ) - 1) * p / 100⌋ = (i : ℤ))
    (hlo : s.getD i 0 = lo) (hhi : s.getD (i + 1) lo = hi) :
    npPercentile xs p = lo + (((s.length : ℚ) - 1) * p / 100 - (i : ℚ)) * (hi - lo) := by
  simp only [npPercentile]
  rw [hs, hfl, Int.toNat_natCast, hlo, hhi]

/-- The percentile of a constant distribution is that constant, for any
percentile rank between 0 and 100. -/
theorem npPercentile_replicate {n : ℕ} (hn : 1 ≤ n) (r p : ℚ)
    (hp0 : 0 ≤ p) (hp1 : p ≤ 100) :
    npPercentile (List.replicate n r) p = r := by
  have hn1 : (1 : ℚ) ≤ (n : ℚ) := by exact_mod_cast hn
  have hn0 : (0 : ℚ) ≤ (n : ℚ) - 1 := by linarith
  have hh0 : (0 : ℚ) ≤ ((n : ℚ) - 1) * p / 100 :=
    div_nonneg (mul_nonneg hn0 hp0) (by norm_num)
  have hh1 : ((n : ℚ) - 1) * p / 100 ≤ (n : ℚ) - 1 := by
    rw [div_le_iff₀ (by norm_num : (0:ℚ) < 100)]
    nlinarith
  have hfl0 : 0 ≤ ⌊((n : ℚ) - 1) * p / 100⌋ := Int.floor_nonneg.2 hh0
  have hfl1 : ⌊((n : ℚ) - 1) * p / 100⌋ ≤ (n : ℤ) - 1 := by
    have : ((n : ℚ) - 1) = (((n : ℤ) - 1 : ℤ) : ℚ) := by push_cast; ring
    calc ⌊((n : ℚ) - 1) * p / 100⌋ ≤ ⌊((n : ℚ) - 1)⌋ := Int.floor_le_floor hh1
      _ = (n : ℤ) - 1 := by rw [this, Int.floor_intCast]
    
  have hi : (⌊((n : ℚ) - 1) * p / 100⌋).toNat < n := by omega
  unfold npPercentile
  simp only [List.length_insertionSort, List.length_replicate, insertionSort_replicate]
  rw [getD_replicate_lt r 0 hi, getD_replicate_self r]
  ring

/-- Pulling a Boolean map on the second components out of a zip-filter-map. -/
theorem filter_zip_map_snd_id {α β : Type _} (σ : β → Bool) :
    ∀ (l : List α) (rs : List β),
      ((l.zip (rs.map σ)).filter (fun q => q.2)).map Prod.fst
        = ((l.zip rs).filter (fun q => σ q.2)).map Prod.fst
  | [], _ => by simp
  | _ :: _, [] => by simp
  | a :: l, r :: rs => by
    cases hf : σ r <;>
      simp [hf, filter_zip_map_snd_id σ l rs]

/-! Claim theorems. -/

/-- C7: a fraction filter that finds none of its marker genes among the
matrix columns emits a non-fatal warning and returns the input matrix
unchanged (same cells, same genes, same values) instead of failing, so the
pipeline continues. -/
theorem fraction_filter_missing_geneset_skips (df : DF) (p : ℚ) (gs : List String) :
    (mtGenes df = [] → filter_high_mito_cells df p = df ∧ mitoWarnings df ≠ []) ∧
    (gs.filter (fun g => df.columns.contains g) = [] →
      filter_cells_by_fraction df gs p = df) := by
  constructor
  · intro h
    constructor
    · simp [filter_high_mito_cells, h]
    · simp [mitoWarnings, h]
  · intro h
    simp only [filter_cells_by_fraction]
    rw [h]
    simp

/-- Witness for C7 on a concrete frame without marker genes. -/
theorem fraction_filter_missing_geneset_skips_witness :
    filter_high_mito_cells df7 95 = df7 ∧ mitoWarnings df7 ≠ [] ∧
    filter_cells_by_fraction df7 ["Ghost"] 95 = df7 := by
  have h := fraction_filter_missing_geneset_skips df7 95 ["Ghost"]
  have h1 := h.1 (by decide)
  have h2 := h.2 (by decide)
  exact ⟨h1.1, h1.2, h2⟩

/-- C2: preprocess_data sends an unrecognized branch name to a ValueError
without running any branch, and a recognized name to exactly the
corresponding one of the two normalization branches. -/
theorem preprocess_data_branch_dispatch (apop rrna : List String) (pApop pRrna : ℚ)
    (fLog fPearson : DF → DF) (raw : DF) (branch : String) :
    (branch = "log_cpm" →
      preprocess_data apop rrna pApop pRrna fLog fPearson raw branch
        = Except.ok (fLog (filter_data apop rrna pApop pRrna raw))) ∧
    (branch = "pearson" →
      preprocess_data apop rrna pApop pRrna fLog fPearson raw branch
        = Except.ok (fPearson (filter_data apop rrna pApop pRrna raw))) ∧
    (branch ≠ "log_cpm" → branch ≠ "pearson" →
      preprocess_data apop rrna pApop pRrna fLog fPearson raw branch
        = Except.error ("Unknown preprocessing branch: " ++ branch)) := by
  refine ⟨?_, ?_, ?_⟩
  · rintro rfl
    simp [preprocess_data]
  · rintro rfl
    simp [preprocess_data]
  · intro h1 h2
    simp [preprocess_data, h1, h2]

/-- Witness for C2 at a concrete unknown branch and a concrete known one. -/
theorem preprocess_data_branch_dispatch_witness :
    preprocess_data [] [] 95 95 id id df2 ("weird")
      = Except.error ("Unknown preprocessing branch: " ++ "weird") ∧
    preprocess_data [] [] 95 95 id id df2 ("pearson")
      = Except.ok (id (filter_data [] [] 95 95 df2)) := by
  refine ⟨?_, ?_⟩
  · exact (preprocess_data_branch_dispatch [] [] 95 95 id id df2 ("weird")).2.2
      (by decide) (by decide)
  · exact (preprocess_data_branch_dispatch [] [] 95 95 id id df2 ("pearson")).2.1 rfl

/-- C8: the filtering phase is the composition magnitude, then apoptosis,
then rRNA, then mitochondrial (mitochondrial last), and each normalization
branch is applied to the output of the completed filtering phase. -/
theorem pipeline_stage_order (apop rrna : List String) (pApop pRrna : ℚ)
    (fLog fPearson : DF → DF) (raw : DF) :
    filter_data apop rrna pApop pRrna raw
      = filter_high_mito_cells
          (filter_high_rrna_cells
            (filter_high_apoptosis_cells (filter_low_magnitude_genes raw 2) apop pApop)
            rrna pRrna) 95 ∧
    preprocess_data apop rrna pApop pRrna fLog fPearson raw ("log_cpm")
      = Except.ok (fLog (filter_data apop rrna pApop pRrna raw)) ∧
    preprocess_data apop rrna pApop pRrna fLog fPearson raw ("pearson")
      = Except.ok (fPearson (filter_data apop rrna pApop pRrna raw)) := by
  refine ⟨rfl, ?_, ?_⟩
  · simp [preprocess_data]
  · simp [preprocess_data]

/-- C9: the code selects mitochondrial genes with a case-sensitive
startswith("MT-"): a lowercase mouse-style "mt-" column is not detected, so
the filter warns and skips, although the identically-shaped uppercase frame
is filtered; the warning text of the source itself promises matching of
both "MT-" and "mt-". -/
theorem mito_prefix_match_case_sensitive :
    mtGenes dfMouse = [] ∧
    filter_high_mito_cells dfMouse 95 = dfMouse ∧
    mitoWarnings dfMouse ≠ [] ∧
    mtGenes dfHuman = ["MT-CO1"] := by
  have hm : mtGenes dfMouse = [] := by decide
  refine ⟨hm, ?_, ?_, by decide⟩
  · simp [filter_high_mito_cells, hm]
  · simp [mitoWarnings, hm]

/-- C4: library-size normalization preserves the cell labels and the number
of rows; every row whose input total is nonzero is rescaled to sum exactly
to the rescale target, and every row whose input total is zero becomes an
all-zero row. -/
theorem normalize_by_library_size_rows (df : DF) (R : ℚ)
    (hnn : ∀ row ∈ df.data, ∀ x ∈ row, 0 ≤ x) :
    (normalize_by_library_size df R).index = df.index ∧
    (normalize_by_library_size df R).data.length = df.data.length ∧
    ∀ i, i < df.data.length →
      ((df.data.getD i []).sum ≠ 0 →
        ((normalize_by_library_size df R).data.getD i []).sum = R) ∧
      ((df.data.getD i []).sum = 0 →
        (normalize_by_library_size df R).data.getD i []
          = List.replicate (df.data.getD i []).length 0) := by
  refine ⟨rfl, by simp [normalize_by_library_size], ?_⟩
  intro i hi
  have hi2 : i < (normalize_by_library_size df R).data.length := by
    simpa [normalize_by_library_size] using hi
  have hout : (normalize_by_library_size df R).data.getD i []
      = (df.data.getD i []).map (fun x => x / (df.data.getD i []).sum * R) := by
    rw [List.getD_eq_getElem _ _ hi2, List.getD_eq_getElem _ _ hi]
    simp [normalize_by_library_size]
  constructor
  · intro hs
    rw [hout, sum_map_div_mul, div_self hs, one_mul]
  · intro hs
    rw [hout]
    refine List.eq_replicate_iff.2 ⟨by simp, ?_⟩
    intro b hb
    rcases List.mem_map.1 hb with ⟨x, hx, rfl⟩
    rw [hs, div_zero, zero_mul]

/-- Witness for C4: the nonzero row of df4 rescales to total 10000 and its
all-zero row stays all-zero. -/
theorem normalize_by_library_size_rows_witness :
    ((normalize_by_library_size df4 10000).data.getD 0 []).sum = 10000 ∧
    (normalize_by_library_size df4 10000).data.getD 1 [] = List.replicate 2 0 := by
  have h := normalize_by_library_size_rows df4 10000 (by
    intro row hrow x hx
    fin_cases hrow <;> fin_cases hx <;> norm_num)
  refine ⟨(h.2.2 0 (by norm_num [df4])).1 (by norm_num [df4]), ?_⟩
  have h2 := (h.2.2 1 (by norm_num [df4])).2 (by norm_num [df4])
  simpa [df4] using h2

/-- C5: the magnitude filter keeps a gene column exactly when its column
maximum reaches min_count, leaves the rows unchanged, and preserves the
relative order of the surviving columns (they form a sublist of the input
columns, obtained by the keep-condition filter). -/
theorem filter_low_magnitude_genes_spec (df : DF) (mc : ℚ) (hnd : df.columns.Nodup) :
    (filter_low_magnitude_genes df mc).index = df.index ∧
    (filter_low_magnitude_genes df mc).data.length = df.data.length ∧
    (filter_low_magnitude_genes df mc).columns = df.columns.filter (geneKept df mc) ∧
    (filter_low_magnitude_genes df mc).columns.Sublist df.columns := by
  have hcols : (filter_low_magnitude_genes df mc).columns
      = df.columns.filter (geneKept df mc) := by
    show ((df.columns.zip ((List.range df.columns.length).map (magnitudeKeep df mc))).filter
        (fun q => q.2)).map Prod.fst = _
    apply filter_zip_range
    intro i hi
    have hidx : df.columns.indexOf (df.columns.get ⟨i, hi⟩) = i := by
      simpa using List.indexOf_getElem hnd i hi
    simp only [geneKept, geneMax, magnitudeKeep, hidx]
  refine ⟨rfl, by simp [filter_low_magnitude_genes, locCols], hcols, ?_⟩
  rw [hcols]
  exact List.filter_sublist _

/-- Witness for C5 on the documentation example: only Gene_A survives. -/
theorem filter_low_magnitude_genes_spec_witness :
    (filter_low_magnitude_genes df5 2).index = df5.index ∧
    (filter_low_magnitude_genes df5 2).columns = df5.columns.filter (geneKept df5 2) ∧
    (filter_low_magnitude_genes df5 2).columns = ["Gene_A"] := by
  have h := filter_low_magnitude_genes_spec df5 2 (by decide)
  have hA : geneKept df5 2 ("Gene_A") = true := by
    have hiA : List.indexOf ("Gene_A") ["Gene_A", "Gene_Binary", "Gene_Zero"] = 0 := by decide
    norm_num [geneKept, geneMax, colMax, colVals, hiA, df5, List.max?, List.foldl, max_def]
  have hB : geneKept df5 2 ("Gene_Binary") = false := by
    have hiB : List.indexOf ("Gene_Binary") ["Gene_A", "Gene_Binary", "Gene_Zero"] = 1 := by decide
    norm_num [geneKept, geneMax, colMax, colVals, hiB, df5, List.max?, List.foldl, max_def]
  have hZ : geneKept df5 2 ("Gene_Zero") = false := by
    have hiZ : List.indexOf ("Gene_Zero") ["Gene_A", "Gene_Binary", "Gene_Zero"] = 2 := by decide
    norm_num [geneKept, geneMax, colMax, colVals, hiZ, df5, List.max?, List.foldl, max_def]
  refine ⟨h.1, h.2.2.1, ?_⟩
  rw [h.2.2.1]
  have hcols : df5.columns = ["Gene_A", "Gene_Binary", "Gene_Zero"] := rfl
  rw [hcols]
  simp [List.filter_cons, hA, hB, hZ]

/-- C10: on a matrix with at least one mitochondrial column in which every
cell has the same mitochondrial ratio, the percentile cutoff equals that
shared ratio, the strict keep condition holds for no cell, and the filter
returns a matrix with zero cells. -/
theorem filter_high_mito_cells_uniform_ratio_empty (df : DF) (p r : ℚ)
    (hmt : mtGenes df ≠ []) (hn : df.data ≠ [])
    (hr : mito_expression df = List.replicate df.data.length r)
    (hp0 : 0 ≤ p) (hp1 : p ≤ 100) :
    (filter_high_mito_cells df p).index = [] ∧
    (filter_high_mito_cells df p).data = [] ∧
    npPercentile (mito_expression df) p = r := by
  have hlen : 1 ≤ df.data.length := by
    cases hd : df.data with
    | nil => exact absurd hd hn
    | cons a l => simp [hd]
  have hcut : npPercentile (mito_expression df) p = r := by
    rw [hr]
    exact npPercentile_replicate hlen r p hp0 hp1
  have hmask : (mito_expression df).map
        (fun x => decide (x < npPercentile (mito_expression df) p))
      = List.replicate df.data.length false := by
    rw [hcut, hr, List.map_replicate]
    simp
  have hzipnil : ∀ {α : Type} (l : List α),
      ((l.zip (List.replicate df.data.length false)).filter (fun q => q.2)).map Prod.fst
        = ([] : List α) := by
    intro α l
    have hfil : (l.zip (List.replicate df.data.length false)).filter (fun q => q.2) = [] := by
      apply List.filter_eq_nil_iff.2
      intro q hq
      have h2 := (List.of_mem_zip hq).2
      have hf := List.eq_of_mem_replicate h2
      simp [hf]
    rw [hfil]
    rfl
  refine ⟨?_, ?_, hcut⟩
  · simp only [filter_high_mito_cells, if_neg hmt, locRows]
    rw [hmask]
    exact hzipnil df.index
  · simp only [filter_high_mito_cells, if_neg hmt, locRows]
    rw [hmask]
    exact hzipnil df.data

/-- Witness for C10: two cells with zero mitochondrial counts everywhere
share the ratio 0, and the filter at the default percentile empties the
frame. -/
theorem filter_high_mito_cells_uniform_ratio_empty_witness :
    (filter_high_mito_cells df10 95).index = [] ∧
    (filter_high_mito_cells df10 95).data = [] ∧
    npPercentile (mito_expression df10) 95 = 0 := by
  have hiX : List.indexOf ("MT-X") ["MT-X", "G"] = 0 := by decide
  have hmt : mtGenes df10 = ["MT-X"] := by decide
  have hr : mito_expression df10 = List.replicate df10.data.length 0 := by
    rw [mito_expression, hmt]
    norm_num [fractionRatios, subsetSum, df10, hiX, List.replicate]
  exact filter_high_mito_cells_uniform_ratio_empty df10 95 0 (by decide) (by decide) hr
    (by norm_num) (by norm_num)

/-- C6: a cell with total count zero (and hence zero subset count, by
non-negativity) gets the well-defined ratio 0 through the substituted
denominator 1, and is retained or dropped deterministically by comparing 0
with the percentile cutoff; no undefined division arises. -/
theorem filter_mito_zero_total_cell (df : DF) (p : ℚ) (i : ℕ)
    (hwf : df.WF) (hnd : df.index.Nodup) (hmt : mtGenes df ≠ [])
    (hi : i < df.data.length)
    (hnn : ∀ x ∈ df.data.getD i [], 0 ≤ x)
    (hz : (df.data.getD i []).sum = 0) :
    (mito_expression df).getD i 0 = 0 ∧
    (df.index.getD i ("") ∈ (filter_high_mito_cells df p).index ↔
      0 < npPercentile (mito_expression df) p) := by
  have hrow0 : ∀ x ∈ df.data.getD i [], x = 0 := all_zero_of_sum_zero _ hnn hz
  have hlr : (mito_expression df).length = df.data.length := by
    simp [mito_expression, fractionRatios]
  have hir : i < (mito_expression df).length := by
    rw [hlr]; exact hi
  have hii : i < df.index.length := hwf.1 ▸ hi
  have hsub : subsetSum df.columns (mtGenes df) (df.data.getD i []) = 0 := by
    apply List.sum_eq_zero
    intro x hx
    rcases List.mem_map.1 hx with ⟨g, hg, rfl⟩
    rcases Nat.lt_or_ge (df.columns.indexOf g) (df.data.getD i []).length with hlt | hge
    · apply hrow0
      rw [List.getD_eq_getElem _ _ hlt]
      exact List.getElem_mem hlt
    · exact List.getD_eq_default _ _ hge
  have hgetdata : df.data[i] = df.data.getD i [] := (List.getD_eq_getElem _ _ hi).symm
  have hratio : (mito_expression df).getD i 0 = 0 := by
    rw [List.getD_eq_getElem _ _ hir]
    simp only [mito_expression, fractionRatios, List.getElem_map]
    rw [hgetdata, hz, hsub]
    norm_num
  have hratio2 : (mito_expression df)[i] = 0 := by
    rw [← List.getD_eq_getElem _ 0 hir]
    exact hratio
  have hmlen : ((mito_expression df).map
        (fun x => decide (x < npPercentile (mito_expression df) p))).length
      = df.index.length := by
    rw [List.length_map, hlr, hwf.1]
  have him : i < ((mito_expression df).map
        (fun x => decide (x < npPercentile (mito_expression df) p))).length := by
    rw [List.length_map]; exact hir
  have hmask_i : ((mito_expression df).map
        (fun x => decide (x < npPercentile (mito_expression df) p)))[i]
      = decide ((0 : ℚ) < npPercentile (mito_expression df) p) := by
    rw [List.getElem_map, hratio2]
  refine ⟨hratio, ?_⟩
  rw [List.getD_eq_getElem _ _ hii]
  simp only [filter_high_mito_cells, if_neg hmt, locRows]
  rw [getElem_mem_filter_zip hnd hmlen hii, hmask_i]
  simp [decide_eq_true_eq]

/-- Witness for C6: the zero-total cell of df6 has ratio 0 and its retention
is exactly the comparison of 0 with the cutoff. -/
theorem filter_mito_zero_total_cell_witness :
    (mito_expression df6).getD 0 0 = 0 ∧
    (df6.index.getD 0 ("") ∈ (filter_high_mito_cells df6 50).index ↔
      0 < npPercentile (mito_expression df6) 50) := by
  refine filter_mito_zero_total_cell df6 50 0 (by decide) (by decide) (by decide)
    (by decide) ?_ ?_
  · intro x hx
    have hrow : df6.data.getD 0 [] = [0, 0] := rfl
    rw [hrow] at hx
    fin_cases hx <;> norm_num
  · show (df6.data.getD 0 []).sum = 0
    norm_num [df6]

/-- C1: in percentile mode the mitochondrial filter takes the standard
linear-interpolation percentile of the per-cell ratio distribution as cutoff
and keeps exactly the cells whose ratio is strictly below it: on any matrix
whose per-cell mitochondrial ratios are a permutation of {1, 1/2, 0}, the
67th-percentile cutoff is 67/100 and exactly the ratio-1 cell is dropped
(in both the labels and the data rows). -/
theorem filter_high_mito_percentile67 (df : DF)
    (hmt : mtGenes df ≠ [])
    (hperm : (mito_expression df).Perm [1, 1/2, 0]) :
    npPercentile (mito_expression df) 67 = 67/100 ∧
    (filter_high_mito_cells df 67).index
      = ((df.index.zip (mito_expression df)).filter
          (fun q => decide (q.2 ≠ 1))).map Prod.fst ∧
    (filter_high_mito_cells df 67).data
      = ((df.data.zip (mito_expression df)).filter
          (fun q => decide (q.2 ≠ 1))).map Prod.fst := by
  have heval := npPercentile_eval [1, 1/2, 0] [0, 1/2, 1] 67 1 (1/2) 1
    (by norm_num [List.insertionSort, List.orderedInsert])
    (by norm_num [Int.floor_eq_iff])
    (by norm_num)
    (by norm_num)
  have hcut : npPercentile (mito_expression df) 67 = 67/100 := by
    rw [npPercentile_congr_perm 67 hperm, heval]
    norm_num
  have hmem : ∀ x ∈ mito_expression df, decide (x < 67/100) = decide (x ≠ 1) := by
    intro x hx
    have hx3 : x ∈ [1, 1/2, 0] := hperm.mem_iff.1 hx
    fin_cases hx3 <;>
      (rw [decide_eq_decide]; norm_num)
  refine ⟨hcut, ?_, ?_⟩
  · simp only [filter_high_mito_cells, if_neg hmt, locRows]
    rw [hcut,
      filter_zip_map_snd_id (fun x => decide (x < 67/100)) df.index (mito_expression df)]
    congr 1
    exact List.filter_congr (fun q hq => hmem q.2 (List.of_mem_zip hq).2)
  · simp only [filter_high_mito_cells, if_neg hmt, locRows]
    rw [hcut,
      filter_zip_map_snd_id (fun x => decide (x < 67/100)) df.data (mito_expression df)]
    congr 1
    exact List.filter_congr (fun q hq => hmem q.2 (List.of_mem_zip hq).2)

/-- Witness for C1 on df1, whose mitochondrial ratios are [1, 1/2, 0]:
the cutoff is 67/100 and exactly Cell_Bad is dropped. -/
theorem filter_high_mito_percentile67_witness :
    npPercentile (mito_expression df1) 67 = 67/100 ∧
    (filter_high_mito_cells df1 67).index
      = ((df1.index.zip (mito_expression df1)).filter
          (fun q => decide (q.2 ≠ 1))).map Prod.fst ∧
    (filter_high_mito_cells df1 67).index = ["Cell_Border", "Cell_Good"] := by
  have hi1 : List.indexOf ("MT-G") ["MT-G", "Other"] = 0 := by decide
  have hmt1 : mtGenes df1 = ["MT-G"] := by decide
  have hratios : mito_expression df1 = [1, 1/2, 0] := by
    rw [mito_expression, hmt1]
    norm_num [fractionRatios, subsetSum, df1, hi1]
  have hperm : (mito_expression df1).Perm [1, 1/2, 0] := by rw [hratios]
  have h := filter_high_mito_percentile67 df1 (by decide) hperm
  refine ⟨h.1, h.2.1, ?_⟩
  rw [h.2.1, hratios]
  have hidx : df1.index = ["Cell_Bad", "Cell_Border", "Cell_Good"] := rfl
  rw [hidx]
  norm_num [List.zip_cons_cons, List.filter_cons]

/-- C3 (amended): the apoptosis and rRNA stages are instances of the generic
fraction filter; with a nonempty gene-set intersection each leaves the set
of gene columns unchanged and keeps exactly the cells whose gene-subset
share of total counts is strictly below the percentile cutoff — that is, it
drops exactly the cells whose share is at least the cutoff. -/
theorem apoptosis_rrna_stage_fraction_filter (df : DF) (gs : List String) (p : ℚ)
    (hne : gs.filter (fun g => df.columns.contains g) ≠ []) :
    ((filter_high_apoptosis_cells df gs p).columns = df.columns ∧
      (filter_high_apoptosis_cells df gs p).index
        = ((df.index.zip
              (fractionRatios df (gs.filter (fun g => df.columns.contains g)))).filter
            (fun q => decide (q.2 < npPercentile
              (fractionRatios df (gs.filter (fun g => df.columns.contains g))) p))).map
            Prod.fst) ∧
    ((filter_high_rrna_cells df gs p).columns = df.columns ∧
      (filter_high_rrna_cells df gs p).index
        = ((df.index.zip
              (fractionRatios df (gs.filter (fun g => df.columns.contains g)))).filter
            (fun q => decide (q.2 < npPercentile
              (fractionRatios df (gs.filter (fun g => df.columns.contains g))) p))).map
            Prod.fst) := by
  have key : (filter_cells_by_fraction df gs p).columns = df.columns ∧
      (filter_cells_by_fraction df gs p).index
        = ((df.index.zip
              (fractionRatios df (gs.filter (fun g => df.columns.contains g)))).filter
            (fun q => decide (q.2 < npPercentile
              (fractionRatios df (gs.filter (fun g => df.columns.contains g))) p))).map
            Prod.fst := by
    simp only [filter_cells_by_fraction, if_neg hne, locRows]
    exact ⟨trivial, filter_zip_map_snd_id _ _ _⟩
  exact ⟨key, key⟩

/-- Counterexample to C3 as stated: on df3 with gene set {A} both cells have
share 1/2, the 95th-percentile cutoff equals 1/2, and the apoptosis stage
drops both cells although neither share strictly exceeds the cutoff. -/
theorem apoptosis_stage_drops_nonexceeding_cells :
    fractionRatios df3 ["A"] = [1/2, 1/2] ∧
    npPercentile (fractionRatios df3 ["A"]) 95 = 1/2 ∧
    (filter_high_apoptosis_cells df3 ["A"] 95).index = [] := by
  have hiA : List.indexOf ("A") ["A", "B"] = 0 := by decide
  have hr : fractionRatios df3 ["A"] = [1/2, 1/2] := by
    norm_num [fractionRatios, subsetSum, df3, hiA]
  have heval := npPercentile_eval [1/2, 1/2] [1/2, 1/2] 95 0 (1/2) (1/2)
    (by norm_num [List.insertionSort, List.orderedInsert])
    (by norm_num [Int.floor_eq_iff])
    (by norm_num)
    (by norm_num)
  have hcut : npPercentile (fractionRatios df3 ["A"]) 95 = 1/2 := by
    rw [hr, heval]
    norm_num
  refine ⟨hr, hcut, ?_⟩
  have hgenes : (["A"] : List String).filter (fun g => df3.columns.contains g) = ["A"] := by
    decide
  simp only [filter_high_apoptosis_cells, filter_cells_by_fraction, hgenes, locRows]
  rw [if_neg (by decide : ¬ ((["A"] : List String) = []))]
  rw [hcut, hr]
  have hidx : df3.index = ["C1", "C2"] := rfl
  rw [hidx]
  norm_num [List.zip_cons_cons, List.filter_cons]

/-- Witness for the amended C3 on df3 with gene set {A}. -/
theorem apoptosis_rrna_stage_fraction_filter_witness :
    (filter_high_apoptosis_cells df3 ["A"] 95).columns = df3.columns ∧
    (filter_high_rrna_cells df3 ["A"] 95).columns = df3.columns ∧
    (filter_high_apoptosis_cells df3 ["A"] 95).index
      = ((df3.index.zip
            (fractionRatios df3 ((["A"] : List String).filter
              (fun g => df3.columns.contains g)))).filter
          (fun q => decide (q.2 < npPercentile
            (fractionRatios df3 ((["A"] : List String).filter
              (fun g => df3.columns.contains g))) 95))).map Prod.fst := by
  have h := apoptosis_rrna_stage_fraction_filter df3 ["A"] 95 (by decide)
  exact ⟨h.1.1, h.2.1, h.1.2⟩
